import Mathlib

/-! Shallow embedding of the quiver-arrow core (src/python/quiver.py) and proofs
about its statistics engine, incremental transfer-log reader, watchdog
timeout policy, exit-code interpretation and summary artifact.

Modelling conventions:
* Python byte/character strings are `List Char`; file contents are the raw
  character sequence.
* Python floats (timestamps, durations, rates, latencies) are modelled as `ℚ`.
* Python `long`/`int` values are `Int`; counts are `Nat`.
* Fallible Python code (uncaught `ValueError`, `ZeroDivisionError`,
  `IndexError` from numpy on empty data) is modelled with `Option`/`Except`.
* `eprint` diagnostic output is modelled explicitly: functions that can emit
  diagnostics return them alongside their result.
-/

namespace Quiver

/-- Equality of `Except` values is decidable when it is for both components. -/
instance {ε α : Type} [DecidableEq ε] [DecidableEq α] : DecidableEq (Except ε α) :=
  fun a b =>
    match a, b with
    | .ok x, .ok y =>
      if h : x = y then isTrue (by rw [h]) else
        isFalse (by intro hh; cases hh; exact h rfl)
    | .ok _, .error _ => isFalse (by intro hh; cases hh)
    | .error _, .ok _ => isFalse (by intro hh; cases hh)
    | .error e, .error f =>
      if h : e = f then isTrue (by rw [h]) else
        isFalse (by intro hh; cases hh; exact h rfl)

/-- Python 2 `int(round(x))`: `round` rounds half away from zero. -/
def pyRound (x : ℚ) : Int :=
  if 0 ≤ x then ⌊x + 1/2⌋ else ⌈x - 1/2⌉

/-- Arithmetic mean, as `numpy.mean` computes it on a nonempty list. -/
def listMean (l : List ℚ) : ℚ :=
  l.sum / l.length

/-- Value of a list of decimal digit characters, as `int()` computes it. -/
def digitsVal (ds : List Char) : Int :=
  ds.foldl (fun n c => 10 * n + ((c.toNat : Int) - 48)) 0

/-- Strip leading and trailing whitespace, as Python `long()` does before
converting. -/
def stripWS (s : List Char) : List Char :=
  ((s.dropWhile Char.isWhitespace).reverse.dropWhile Char.isWhitespace).reverse

/-- Python 2 `long(s)`: strip whitespace, optional sign, then a nonempty
run of decimal digits; anything else raises `ValueError` (here `none`). -/
def pyLong (s : List Char) : Option Int :=
  match stripWS s with
  | [] => none
  | c :: cs =>
    if c = '-' then
      if !cs.isEmpty && cs.all Char.isDigit then some (-(digitsVal cs)) else none
    else if c = '+' then
      if !cs.isEmpty && cs.all Char.isDigit then some (digitsVal cs) else none
    else
      if (c :: cs).all Char.isDigit then some (digitsVal (c :: cs)) else none

/-- Python `s.split(",", maxsplit)`: the accumulator holds the current
field reversed; once `maxsplit` separators have been consumed the rest of
the string is one final field. -/
def splitCommaAux : Nat → List Char → List Char → List (List Char)
  | _, acc, [] => [acc.reverse]
  | 0, acc, c :: cs => [acc.reverse ++ (c :: cs)]
  | Nat.succ n, acc, c :: cs =>
    if c = ',' then acc.reverse :: splitCommaAux n [] cs
    else splitCommaAux (Nat.succ n) (c :: acc) cs

/-- Python `s.split(",", maxsplit)`. -/
def splitComma (maxsplit : Nat) (s : List Char) : List (List Char) :=
  splitCommaAux maxsplit [] s

/-- Model of `_parse_send(line)`: `message_id, send_time = line.split(",", 1)`
then `send_time = long(send_time)`.  Unpack failure (wrong field count) or
`long` failure is a `ValueError`, here `none`. -/
def parse_send (line : List Char) : Option (List Char × Int) :=
  match splitComma 1 line with
  | [message_id, send_time] => (pyLong send_time).map (fun t => (message_id, t))
  | _ => none

/-- Model of `_parse_receive(line)`: `message_id, send_time, receive_time =
line.split(",", 2)` then both times through `long`. -/
def parse_receive (line : List Char) : Option (List Char × Int × Int) :=
  match splitComma 2 line with
  | [message_id, send_time, receive_time] =>
    match pyLong send_time, pyLong receive_time with
    | some s, some r => some (message_id, s, r)
    | _, _ => none
  | _ => none

/-- Python file iteration `for line in f`: splits the content after each
newline, keeping the terminator; a final unterminated chunk is still
yielded; an empty file yields no lines. -/
def fileLinesAux (acc : List Char) : List Char → List (List Char)
  | [] => if acc.isEmpty then [] else [acc.reverse]
  | c :: cs =>
    if c = '\n' then (acc.reverse ++ ['\n']) :: fileLinesAux [] cs
    else fileLinesAux (c :: acc) cs

/-- The sequence of lines Python file iteration yields for a file content. -/
def pyFileLines (s : List Char) : List (List Char) :=
  fileLinesAux [] s

/-! Incremental transfer-log reader (`_PeriodicStatusThread.collect_transfers`).
The reader loop records the cursor (`fpos = fin.tell()`), reads one line, and
stops (seeking the cursor back) as soon as the line is empty or lacks a
trailing newline; otherwise the terminator is stripped and the line parsed.
We model the unread suffix of the file; `completeLines` splits it into the
complete (terminator-stripped) lines consumed and the unconsumed remainder. -/

/-- Split off the maximal prefix of newline-terminated lines (terminators
stripped, as `line = line[:-1]` does); the second component is the trailing
newline-free remainder the cursor is seeked back to.  `acc` holds the
characters of the current line, reversed. -/
def completeLinesAux (acc : List Char) : List Char → List (List Char) × List Char
  | [] => ([], acc.reverse)
  | c :: cs =>
    if c = '\n' then
      let p := completeLinesAux [] cs
      (acc.reverse :: p.1, p.2)
    else completeLinesAux (c :: acc) cs

/-- Complete lines and unconsumed remainder of an unread file suffix. -/
def completeLines (s : List Char) : List (List Char) × List Char :=
  completeLinesAux [] s

/-- Re-attach the stripped terminators: the consumed portion of the file. -/
def joinLines (ls : List (List Char)) : List Char :=
  (ls.map (fun l => l ++ ['\n'])).flatten

/-- Result of one `collect_transfers` call: the parsed records, the
unconsumed suffix left for the next call, and the malformed lines reported
to the diagnostic channel (`eprint`) and skipped. -/
structure CollectResult (α : Type) where
  transfers : List α
  leftover : List Char
  failedLines : List (List Char)
  deriving DecidableEq

/-- The body of the reader loop over the complete lines: `try` the parse,
on failure `eprint` a diagnostic and `continue`, else append the record. -/
def collectLoop {α : Type} (parse : List Char → Option α) :
    List (List Char) → List α × List (List Char)
  | [] => ([], [])
  | l :: ls =>
    let p := collectLoop parse ls
    match parse l with
    | some r => (r :: p.1, p.2)
    | none => (p.1, l :: p.2)

/-- Model of `collect_transfers(fin, parse_func)` acting on the unread suffix `s`. -/
def collect_transfers {α : Type} (parse : List Char → Option α) (s : List Char) :
    CollectResult α :=
  let p := completeLines s
  let q := collectLoop parse p.1
  ⟨q.1, p.2, q.2⟩

/-! Statistics engine (`compute_sender_results` / `compute_receiver_results`). -/

/-- Ways the statistics engine can raise: an uncaught `ValueError` from
parsing a line (there is no try/except in these loops), an uncaught
`ZeroDivisionError` from the rate division, or numpy refusing to take a
percentile of an empty sequence. -/
inductive CompErr : Type
  | parseFailure (line : List Char)
  | zeroDivision
  | emptyData
  deriving DecidableEq

/-- Results fields set by `compute_sender_results`. -/
structure SenderResults where
  message_count : Nat
  message_rate : Int
  message_latency : Option ℚ
  message_latency_by_quartile : Option (ℚ × ℚ × ℚ × ℚ)
  deriving DecidableEq

/-- The sender loop `for line in f: message_id, send_time = _parse_send(line);
count += 1` — the first unparseable line raises out of the loop. -/
def countSendsLines : List (List Char) → Except (List Char) Nat
  | [] => .ok 0
  | line :: rest =>
    match parse_send line with
    | none => .error line
    | some _ => (countSendsLines rest).map (· + 1)

/-- Model of `QuiverArrowCommand.compute_sender_results`: count all (parsed) lines of
the transfer log, then `rate = int(round(count / (end_time - start_time)))`;
latency fields stay `None` for the sender role. -/
def compute_sender_results (content : List Char) (start_time end_time : ℚ) :
    Except CompErr SenderResults :=
  match countSendsLines (pyFileLines content) with
  | .error l => .error (.parseFailure l)
  | .ok count =>
    if end_time - start_time = 0 then .error .zeroDivision
    else .ok { message_count := count,
               message_rate := pyRound ((count : ℚ) / (end_time - start_time)),
               message_latency := none,
               message_latency_by_quartile := none }

/-- The receiver loop: each line through `_parse_receive`, then
`latency = receive_time - send_time` appended in file order; the first
unparseable line raises out of the loop. -/
def receiverLatenciesLines : List (List Char) → Except (List Char) (List ℚ)
  | [] => .ok []
  | line :: rest =>
    match parse_receive line with
    | none => .error line
    | some (_, s, r) => (receiverLatenciesLines rest).map (fun ls => ((r - s : Int) : ℚ) :: ls)

/-- The latency sequence `compute_receiver_results` builds from the log. -/
def receiverLatencies (content : List Char) : Except (List Char) (List ℚ) :=
  receiverLatenciesLines (pyFileLines content)

/-- Linear interpolation at fractional rank `r` into a (sorted) list:
`l[floor r] + (r - floor r) * (l[ceil r] - l[floor r])`. -/
def interpAt (l : List ℚ) (r : ℚ) : ℚ :=
  l.getD ⌊r⌋.toNat 0 +
    (r - (⌊r⌋.toNat : ℚ)) * (l.getD ⌈r⌉.toNat 0 - l.getD ⌊r⌋.toNat 0)

/-- Model of `numpy.percentile(l, q)` with the default linear interpolation: sort the
data and interpolate at rank `q * (n - 1) / 100`. -/
def percentile (l : List ℚ) (q : ℚ) : ℚ :=
  interpAt (l.insertionSort (· ≤ ·)) (q * ((l.length : ℚ) - 1) / 100)

/-- Results fields set by `compute_receiver_results`.  `warnings` holds the
diagnostic lines emitted while computing: the source body contains no
`eprint` call, so it is always empty. -/
structure ReceiverResults where
  message_count : Nat
  message_rate : Int
  message_latency : ℚ
  message_latency_by_quartile : ℚ × ℚ × ℚ × ℚ
  warnings : List (List Char)
  deriving DecidableEq

/-- Model of `QuiverArrowCommand.compute_receiver_results`: build the latency list,
`rate = int(round(count / duration))` (raising `ZeroDivisionError` when the
duration is exactly zero), `numpy.mean`, then the four `numpy.percentile`
calls (which raise on an empty sequence). -/
def compute_receiver_results (content : List Char) (start_time end_time : ℚ) :
    Except CompErr ReceiverResults :=
  match receiverLatencies content with
  | .error l => .error (.parseFailure l)
  | .ok latencies =>
    if end_time - start_time = 0 then .error .zeroDivision
    else if latencies.isEmpty then .error .emptyData
    else .ok { message_count := latencies.length,
               message_rate := pyRound ((latencies.length : ℚ) / (end_time - start_time)),
               message_latency := listMean latencies,
               message_latency_by_quartile :=
                 (percentile latencies 25, percentile latencies 50,
                  percentile latencies 75, percentile latencies 100),
               warnings := [] }

/-! `QuiverArrowCommand.print_results` re-reads the transfer log and
recomputes the same figures independently, with an inline
`line.split(",", 2)` unpack instead of `_parse_receive`. -/

/-- Values `print_results` computes before formatting. -/
structure PrintedResults where
  duration : ℚ
  transfers : Nat
  rate : Int
  latency : ℚ
  quartiles : ℚ × ℚ × ℚ × ℚ
  deriving DecidableEq

/-- The `print_results` loop: `message_id, send_time, receive_time =
line.split(",", 2)`, both times through `long`, latency appended; the first
bad line raises `ValueError` out of the loop. -/
def printLatenciesLines : List (List Char) → Except (List Char) (List ℚ)
  | [] => .ok []
  | line :: rest =>
    match splitComma 2 line with
    | [_, send_time, receive_time] =>
      match pyLong send_time, pyLong receive_time with
      | some s, some r =>
        (printLatenciesLines rest).map (fun ls => ((r - s : Int) : ℚ) :: ls)
      | _, _ => .error line
    | _ => .error line

/-- Model of `QuiverArrowCommand.print_results`, up to the formatting of the values
it prints. -/
def print_results (content : List Char) (start_time end_time : ℚ) :
    Except CompErr PrintedResults :=
  match printLatenciesLines (pyFileLines content) with
  | .error l => .error (.parseFailure l)
  | .ok latencies =>
    if end_time - start_time = 0 then .error .zeroDivision
    else if latencies.isEmpty then .error .emptyData
    else .ok { duration := end_time - start_time,
               transfers := latencies.length,
               rate := pyRound ((latencies.length : ℚ) / (end_time - start_time)),
               latency := listMean latencies,
               quartiles :=
                 (percentile latencies 25, percentile latencies 50,
                  percentile latencies 75, percentile latencies 100) }

/-! Watchdog (`_PeriodicStatusThread.check_timeout`).  The thread keeps a
checkpoint `(timestamp, messages)`; `stop` is the command's stop event and
`timedOutReported` records the `eprint` of the timed-out diagnostic. -/

/-- The mutable state `check_timeout` reads and writes. -/
structure MonitorState where
  checkpoint : ℚ × Nat
  messages : Nat
  stopped : Bool
  timedOutReported : Bool
  deriving DecidableEq

/-- Model of `check_timeout(self, now)`: if the message total has not moved since the
checkpoint and more than `timeout` has elapsed, set `stop`, report the
timed-out error and return (checkpoint untouched); otherwise advance the
checkpoint timestamp only on growth and record the current total. -/
def check_timeout (timeout : ℚ) (st : MonitorState) (now : ℚ) : MonitorState :=
  let t0 := st.checkpoint.1
  let messagesThen := st.checkpoint.2
  let elapsed := now - t0
  if st.messages = messagesThen ∧ timeout < elapsed then
    { st with stopped := true, timedOutReported := true }
  else
    let t1 := if messagesThen < st.messages then now else t0
    { st with checkpoint := (t1, st.messages) }

/-- One Monitor tick as `do_run` performs it: `self.messages +=
len(transfers)` followed by `self.check_timeout(snap.timestamp)`. -/
def monitorTick (timeout : ℚ) (st : MonitorState) (delta : Nat) (now : ℚ) :
    MonitorState :=
  check_timeout timeout { st with messages := st.messages + delta } now

/-! Exit interpretation (`QuiverArrowCommand.run`, after the poll loop). -/

/-- Terminal errors the run driver raises after the process exits. -/
inductive RunError : Type
  | processExit (pid : Nat) (operation : List Char) (code : Int)
  | noTransfers
  deriving DecidableEq

/-- The message each error carries (both are raised as `QuiverError`s). -/
def runErrorMessage : RunError → List Char
  | .processExit pid operation code =>
    ("Process ".data) ++ (toString pid).data ++ (" (".data) ++ operation
      ++ (") exited with code ".data) ++ (toString code).data
  | .noTransfers => ("No transfers".data)

/-- Lines 448-457 of `run`: `returncode == 0` is success, any other code
raises naming pid, operation and code; then a zero-size transfer log after
a successful exit raises the distinct no-transfers error. -/
def interpretExit (pid : Nat) (operation : List Char) (code : Int)
    (transfersSize : Nat) : Except RunError Unit :=
  if code = 0 then
    if transfersSize = 0 then .error .noTransfers else .ok ()
  else .error (.processExit pid operation code)

/-! Summary artifact (`QuiverArrowCommand.save_summary`). -/

/-- JSON scalar values appearing in the summary document. -/
inductive JValue : Type
  | str (s : List Char)
  | int (n : Int)
  deriving DecidableEq

/-- The configuration fields `save_summary` persists. -/
structure ArrowConfig where
  impl : List Char
  address : List Char
  output_dir : List Char
  connection_mode : List Char
  channel_mode : List Char
  operation : List Char
  id : List Char
  messages : Int
  payload_size : Int
  credit_window : Int
  timeout : Int
  deriving DecidableEq

/-- The results fields `save_summary` persists. -/
structure ArrowResults where
  message_count : Nat
  message_rate : Int
  deriving DecidableEq

/-- The `props` document `save_summary` builds and dumps as JSON.  The
latency figures are not added: the source leaves them commented out
(`XXX Conditionally add latency figures`). -/
def save_summary_props (c : ArrowConfig) (res : ArrowResults) :
    List (List Char × List (List Char × JValue)) :=
  [(("config".data),
    [(("impl".data), .str c.impl),
     (("address".data), .str c.address),
     (("output_dir".data), .str c.output_dir),
     (("connection_mode".data), .str c.connection_mode),
     (("channel_mode".data), .str c.channel_mode),
     (("operation".data), .str c.operation),
     (("id".data), .str c.id),
     (("messages".data), .int c.messages),
     (("payload_size".data), .int c.payload_size),
     (("credit_window".data), .int c.credit_window),
     (("timeout".data), .int c.timeout)]),
   (("results".data),
    [(("message_count".data), .int (res.message_count : Int)),
     (("message_rate".data), .int res.message_rate)])]

/-- Read a field of a group back out of a written summary document. -/
def lookupField (doc : List (List Char × List (List Char × JValue)))
    (group key : List Char) : Option JValue :=
  match doc.lookup group with
  | none => none
  | some fields => fields.lookup key

/-! Per-tick snapshot (`_StatusSnapshot.capture_transfers`), receiver-shaped
transfer records `(id, send_time, receive_time)`. -/

/-- The fields `capture_transfers` sets.  `warnings` holds diagnostic lines
emitted during capture: the source body contains no `eprint` call, so it is
always empty. -/
structure SnapshotTransfers where
  message_total : Nat
  message_count : Nat
  message_rate : Int
  message_latency : Option ℚ
  warnings : List (List Char)
  deriving DecidableEq

/-- Model of `capture_transfers(self, transfers)`: `period` is the time since the
previous snapshot (a zero period raises `ZeroDivisionError` at the rate
division, modelled as `none`); latency is the mean of the raw
`receive_time - send_time` differences, computed only for a nonempty batch
in the receive role. -/
def capture_transfers (operation : List Char) (threadMessages : Nat)
    (transfers : List (List Char × Int × Int)) (period : ℚ) :
    Option SnapshotTransfers :=
  if period = 0 then none
  else some
    { message_total := threadMessages,
      message_count := transfers.length,
      message_rate := pyRound ((transfers.length : ℚ) / period),
      message_latency :=
        if 0 < transfers.length ∧ operation = ("receive".data) then
          some (listMean (transfers.map (fun r => ((r.2.2 - r.2.1 : Int) : ℚ))))
        else none,
      warnings := [] }

end Quiver


namespace Quiver

/-! Supporting lemmas. -/

/-- A log whose lines all parse is counted in full by the sender loop. -/
theorem countSendsLines_all (ls : List (List Char))
    (h : ∀ l ∈ ls, (parse_send l).isSome) :
    countSendsLines ls = .ok ls.length := by
  induction ls with
  | nil => rfl
  | cons l ls ih =>
    obtain ⟨v, hv⟩ := Option.isSome_iff_exists.mp (h l (List.mem_cons_self l ls))
    simp [countSendsLines, hv, ih (fun x hx => h x (List.mem_cons_of_mem _ hx)),
      Except.map]

/-- Helper to evaluate `pyRound` at concrete nonnegative arguments. -/
theorem pyRound_eval {x : ℚ} {n : ℤ} (h0 : 0 ≤ x) (h1 : (n : ℚ) ≤ x + 1/2)
    (h2 : x + 1/2 < n + 1) : pyRound x = n := by
  rw [pyRound, if_pos h0]
  exact Int.floor_eq_iff.mpr ⟨h1, h2⟩

/-! C1. -/

/-- C1: for a sender transfer log in which every line is a well-formed send
record and a start/end pair with positive duration, `compute_sender_results`
sets `message_count` to the number of lines, `message_rate` to
`round(count / duration)`, and leaves both latency fields `None`. -/
theorem sender_results_of_wellformed_log (content : List Char) (st et : ℚ)
    (hwf : ∀ l ∈ pyFileLines content, (parse_send l).isSome)
    (hd : 0 < et - st) :
    compute_sender_results content st et =
      .ok { message_count := (pyFileLines content).length,
            message_rate := pyRound (((pyFileLines content).length : ℚ) / (et - st)),
            message_latency := none,
            message_latency_by_quartile := none } := by
  unfold compute_sender_results
  rw [countSendsLines_all _ hwf]
  simp [hd.ne']

/-- C1 witness: the spec example, three send records over duration 1. -/
theorem sender_results_of_wellformed_log_witness :
    (∀ l ∈ pyFileLines (("m1,1000\nm2,1050\nm3,1200\n").data),
      (parse_send l).isSome) ∧ (0 < (1 : ℚ) - 0) ∧
    compute_sender_results (("m1,1000\nm2,1050\nm3,1200\n").data) 0 1 =
      .ok { message_count := 3, message_rate := 3, message_latency := none,
            message_latency_by_quartile := none } := by
  refine ⟨by decide, by norm_num, ?_⟩
  rw [sender_results_of_wellformed_log (("m1,1000\nm2,1050\nm3,1200\n").data)
    0 1 (by decide) (by norm_num)]
  have hlen : (pyFileLines (("m1,1000\nm2,1050\nm3,1200\n").data)).length = 3 := by
    decide
  rw [hlen]
  have hr : pyRound (((3 : Nat) : ℚ) / (1 - 0)) = 3 := by
    apply pyRound_eval <;> norm_num
  rw [hr]

/-! C5. -/

/-- C5: exit code 0 is success; any nonzero code yields the process-exit
error naming pid, operation and code; a successful exit with an empty
transfer log yields the distinct no-transfers error, never a success. -/
theorem exit_code_interpretation (pid : Nat) (operation : List Char)
    (code : Int) (size : Nat) :
    (code ≠ 0 → interpretExit pid operation code size =
      .error (.processExit pid operation code)) ∧
    (code = 0 → size = 0 → interpretExit pid operation code size =
      .error .noTransfers) ∧
    (code = 0 → size ≠ 0 → interpretExit pid operation code size = .ok ()) ∧
    RunError.noTransfers ≠ RunError.processExit pid operation code := by
  refine ⟨fun h => ?_, fun h hs => ?_, fun h hs => ?_, fun h => RunError.noConfusion h⟩
  · rw [interpretExit, if_neg h]
  · rw [interpretExit, if_pos h, if_pos hs]
  · rw [interpretExit, if_pos h, if_neg hs]

/-- C5 witness: concrete instances of all three exit interpretations. -/
theorem exit_code_interpretation_witness :
    ((1 : Int) ≠ 0 ∧ interpretExit 42 (("send").data) 1 5 =
      .error (.processExit 42 (("send").data) 1)) ∧
    ((0 : Int) = 0 ∧ (0 : Nat) = 0 ∧ interpretExit 42 (("send").data) 0 0 =
      .error .noTransfers) ∧
    ((0 : Int) = 0 ∧ (5 : Nat) ≠ 0 ∧ interpretExit 42 (("send").data) 0 5 = .ok ()) := by
  refine ⟨⟨by decide, ?_⟩, ⟨rfl, rfl, ?_⟩, ⟨rfl, by decide, ?_⟩⟩
  · exact (exit_code_interpretation 42 (("send").data) 1 5).1 (by decide)
  · exact (exit_code_interpretation 42 (("send").data) 0 0).2.1 rfl rfl
  · exact (exit_code_interpretation 42 (("send").data) 0 5).2.2.1 rfl (by decide)

/-! C7. -/

/-- C7 counterexample: a duration of 2/5 second rounds to zero, yet
`compute_sender_results` returns a division result (rate 3 for one record)
instead of failing. -/
theorem rounding_zero_duration_division_cx :
    pyRound ((2 : ℚ)/5 - 0) = 0 ∧
    compute_sender_results (("m1,1000\n").data) 0 ((2 : ℚ)/5) =
      .ok { message_count := 1, message_rate := 3, message_latency := none,
            message_latency_by_quartile := none } := by
  constructor
  · apply pyRound_eval <;> norm_num
  · unfold compute_sender_results
    have hc : countSendsLines (pyFileLines (("m1,1000\n").data)) = .ok 1 := by decide
    rw [hc]
    have hd : ((2 : ℚ)/5 - 0) ≠ 0 := by norm_num
    simp only [hd, if_false, reduceIte]
    have hr : pyRound (((1 : Nat) : ℚ) / ((2 : ℚ)/5 - 0)) = 3 := by
      apply pyRound_eval <;> norm_num
    rw [hr]

/-- C7 (amended): a duration that is exactly zero makes both statistics
computations fail, never returning a division result; but a duration that
merely rounds to zero is not failed: for any nonzero duration each function
returns the division-result rate whenever it succeeds at all (sender: every
line parses; receiver: every line parses and the latency list is nonempty). -/
theorem results_fail_only_on_exact_zero_duration (content : List Char)
    (st et : ℚ) :
    (et - st = 0 → (compute_sender_results content st et).isOk = false ∧
      (compute_receiver_results content st et).isOk = false) ∧
    (et - st ≠ 0 → ∀ count, countSendsLines (pyFileLines content) = .ok count →
      compute_sender_results content st et =
        .ok { message_count := count,
              message_rate := pyRound ((count : ℚ) / (et - st)),
              message_latency := none,
              message_latency_by_quartile := none }) ∧
    (et - st ≠ 0 → ∀ lats, receiverLatencies content = .ok lats → lats ≠ [] →
      compute_receiver_results content st et =
        .ok { message_count := lats.length,
              message_rate := pyRound ((lats.length : ℚ) / (et - st)),
              message_latency := listMean lats,
              message_latency_by_quartile :=
                (percentile lats 25, percentile lats 50,
                 percentile lats 75, percentile lats 100),
              warnings := [] }) := by
  refine ⟨?_, ?_, ?_⟩
  · intro h
    constructor
    · unfold compute_sender_results
      cases hc : countSendsLines (pyFileLines content) with
      | error l => rfl
      | ok count => simp [h, Except.isOk, Except.toBool]
    · unfold compute_receiver_results
      cases hc : receiverLatencies content with
      | error l => rfl
      | ok lats => simp [h, Except.isOk, Except.toBool]
  · intro h count hc
    unfold compute_sender_results
    rw [hc]
    simp [h]
  · intro h lats hp hne
    have hee : lats.isEmpty = false := by
      cases lats with
      | nil => exact absurd rfl hne
      | cons a t => rfl
    unfold compute_receiver_results
    simp only [hp]
    rw [if_neg h]
    rw [hee]
    rfl

/-- C7 witness: all three branches of the amended statement at concrete
inputs, the nonzero duration 2/5 rounding to zero in both roles. -/
theorem results_fail_only_on_exact_zero_duration_witness :
    ((1 : ℚ) - 1 = 0 ∧
      (compute_sender_results (("m1,1000\n").data) 1 1).isOk = false ∧
      (compute_receiver_results (("m1,1000,1010\n").data) 1 1).isOk = false) ∧
    (((2 : ℚ)/5 - 0 ≠ 0) ∧
      countSendsLines (pyFileLines (("m1,1000\n").data)) = .ok 1 ∧
      compute_sender_results (("m1,1000\n").data) 0 ((2 : ℚ)/5) =
        .ok { message_count := 1,
              message_rate := pyRound (((1 : Nat) : ℚ) / ((2 : ℚ)/5 - 0)),
              message_latency := none,
              message_latency_by_quartile := none }) ∧
    (((2 : ℚ)/5 - 0 ≠ 0) ∧
      receiverLatencies (("m1,1000,1010\n").data) = .ok [10] ∧
      ([(10 : ℚ)] ≠ []) ∧
      compute_receiver_results (("m1,1000,1010\n").data) 0 ((2 : ℚ)/5) =
        .ok { message_count := 1,
              message_rate := pyRound ((([(10 : ℚ)]).length : ℚ) / ((2 : ℚ)/5 - 0)),
              message_latency := listMean [10],
              message_latency_by_quartile :=
                (percentile [10] 25, percentile [10] 50,
                 percentile [10] 75, percentile [10] 100),
              warnings := [] }) := by
  refine ⟨⟨by norm_num, ?_, ?_⟩, ⟨by norm_num, by decide, ?_⟩,
    ⟨by norm_num, by decide, by decide, ?_⟩⟩
  · exact ((results_fail_only_on_exact_zero_duration (("m1,1000\n").data) 1 1).1
      (by norm_num)).1
  · exact ((results_fail_only_on_exact_zero_duration (("m1,1000,1010\n").data) 1 1).1
      (by norm_num)).2
  · exact (results_fail_only_on_exact_zero_duration (("m1,1000\n").data) 0
      ((2 : ℚ)/5)).2.1 (by norm_num) 1 (by decide)
  · exact (results_fail_only_on_exact_zero_duration (("m1,1000,1010\n").data) 0
      ((2 : ℚ)/5)).2.2 (by norm_num) [10] (by decide) (by decide)

/-! C6. -/

/-- C6 counterexample: for a receive-operation configuration the persisted
results group contains no latency fields (the source leaves them commented
out), contradicting "present exactly when the operation is receive". -/
theorem summary_latency_fields_absent_cx :
    (({ impl := ("qpid-proton-python").data, address := ("q0").data,
        output_dir := ("/tmp/out").data, connection_mode := ("client").data,
        channel_mode := ("active").data, operation := ("receive").data,
        id := ("quiver-abc").data, messages := 1000000, payload_size := 100,
        credit_window := 1000, timeout := 10 } : ArrowConfig).operation
      = ("receive").data) ∧
    lookupField (save_summary_props
      { impl := ("qpid-proton-python").data, address := ("q0").data,
        output_dir := ("/tmp/out").data, connection_mode := ("client").data,
        channel_mode := ("active").data, operation := ("receive").data,
        id := ("quiver-abc").data, messages := 1000000, payload_size := 100,
        credit_window := 1000, timeout := 10 }
      { message_count := 1000000, message_rate := 50000 })
      (("results").data) (("message_latency").data) = none ∧
    lookupField (save_summary_props
      { impl := ("qpid-proton-python").data, address := ("q0").data,
        output_dir := ("/tmp/out").data, connection_mode := ("client").data,
        channel_mode := ("active").data, operation := ("receive").data,
        id := ("quiver-abc").data, messages := 1000000, payload_size := 100,
        credit_window := 1000, timeout := 10 }
      { message_count := 1000000, message_rate := 50000 })
      (("results").data) (("message_latency_by_quartile").data) = none := by
  refine ⟨rfl, ?_, ?_⟩ <;> decide

/-- C6 (amended): the summary document has exactly the groups `config` and
`results`; the config group holds exactly the eleven configuration fields
and the results group exactly message count and message rate — never any
latency field, for either operation — and looking any field back up out of
the written document reproduces the stored value exactly. -/
theorem summary_document_fields (c : ArrowConfig) (r : ArrowResults) :
    (save_summary_props c r).map Prod.fst = [("config").data, ("results").data] ∧
    ((save_summary_props c r).lookup (("config").data)).map (List.map Prod.fst) =
      some [("impl").data, ("address").data, ("output_dir").data,
            ("connection_mode").data, ("channel_mode").data, ("operation").data,
            ("id").data, ("messages").data, ("payload_size").data,
            ("credit_window").data, ("timeout").data] ∧
    ((save_summary_props c r).lookup (("results").data)).map (List.map Prod.fst) =
      some [("message_count").data, ("message_rate").data] ∧
    lookupField (save_summary_props c r) (("config").data) (("impl").data) =
      some (.str c.impl) ∧
    lookupField (save_summary_props c r) (("config").data) (("address").data) =
      some (.str c.address) ∧
    lookupField (save_summary_props c r) (("config").data) (("output_dir").data) =
      some (.str c.output_dir) ∧
    lookupField (save_summary_props c r) (("config").data) (("connection_mode").data) =
      some (.str c.connection_mode) ∧
    lookupField (save_summary_props c r) (("config").data) (("channel_mode").data) =
      some (.str c.channel_mode) ∧
    lookupField (save_summary_props c r) (("config").data) (("operation").data) =
      some (.str c.operation) ∧
    lookupField (save_summary_props c r) (("config").data) (("id").data) =
      some (.str c.id) ∧
    lookupField (save_summary_props c r) (("config").data) (("messages").data) =
      some (.int c.messages) ∧
    lookupField (save_summary_props c r) (("config").data) (("payload_size").data) =
      some (.int c.payload_size) ∧
    lookupField (save_summary_props c r) (("config").data) (("credit_window").data) =
      some (.int c.credit_window) ∧
    lookupField (save_summary_props c r) (("config").data) (("timeout").data) =
      some (.int c.timeout) ∧
    lookupField (save_summary_props c r) (("results").data) (("message_count").data) =
      some (.int (r.message_count : Int)) ∧
    lookupField (save_summary_props c r) (("results").data) (("message_rate").data) =
      some (.int r.message_rate) ∧
    lookupField (save_summary_props c r) (("results").data) (("message_latency").data) =
      none ∧
    lookupField (save_summary_props c r) (("results").data)
      (("message_latency_by_quartile").data) = none := by
  repeat' constructor

/-! C4. -/

/-- C4: in a Monitor tick the timeout checkpoint timestamp moves only when
the cumulative message total has grown past the checkpointed total; a total
that has not grown while strictly more than the timeout elapsed sets `stop`
and reports the timed-out error; and a tick showing growth, or within the
timeout, never changes the stop signal. -/
theorem check_timeout_stall_policy (timeout : ℚ) (st : MonitorState)
    (delta : Nat) (now : ℚ) :
    ((monitorTick timeout st delta now).checkpoint.1 ≠ st.checkpoint.1 →
      st.checkpoint.2 < st.messages + delta) ∧
    (st.messages + delta = st.checkpoint.2 → timeout < now - st.checkpoint.1 →
      (monitorTick timeout st delta now).stopped = true ∧
      (monitorTick timeout st delta now).timedOutReported = true) ∧
    (st.checkpoint.2 < st.messages + delta →
      (monitorTick timeout st delta now).stopped = st.stopped ∧
      (monitorTick timeout st delta now).timedOutReported = st.timedOutReported) ∧
    (now - st.checkpoint.1 ≤ timeout →
      (monitorTick timeout st delta now).stopped = st.stopped) := by
  unfold monitorTick check_timeout
  refine ⟨?_, ?_, ?_, ?_⟩
  · intro hne
    by_cases hA : st.messages + delta = st.checkpoint.2 ∧
        timeout < now - st.checkpoint.1
    · rw [if_pos hA] at hne
      exact absurd rfl hne
    · rw [if_neg hA] at hne
      by_cases hg : st.checkpoint.2 < st.messages + delta
      · exact hg
      · rw [if_neg hg] at hne
        exact absurd rfl hne
  · intro h1 h2
    rw [if_pos ⟨h1, h2⟩]
    exact ⟨rfl, rfl⟩
  · intro hg
    have hA : ¬(st.messages + delta = st.checkpoint.2 ∧
        timeout < now - st.checkpoint.1) := by
      intro hA
      exact absurd hA.1 (Nat.ne_of_gt hg)
    rw [if_neg hA]
    exact ⟨rfl, rfl⟩
  · intro hle
    by_cases hA : st.messages + delta = st.checkpoint.2 ∧
        timeout < now - st.checkpoint.1
    · exact absurd hA.2 (not_lt.mpr hle)
    · rw [if_neg hA]

/-- C4 witness: a stalled total (5 messages at the checkpoint, still 5 now)
with 11 seconds elapsed against a 10-second timeout stops and reports. -/
theorem check_timeout_stall_policy_witness :
    ((MonitorState.mk (0, 5) 5 false false).messages + 0 =
      (MonitorState.mk (0, 5) 5 false false).checkpoint.2) ∧
    ((10 : ℚ) < 11 - (MonitorState.mk (0, 5) 5 false false).checkpoint.1) ∧
    (monitorTick 10 (MonitorState.mk (0, 5) 5 false false) 0 11).stopped = true ∧
    (monitorTick 10 (MonitorState.mk (0, 5) 5 false false) 0 11).timedOutReported
      = true := by
  refine ⟨rfl, by norm_num, ?_⟩
  exact (check_timeout_stall_policy 10 (MonitorState.mk (0, 5) 5 false false)
    0 11).2.1 rfl (by norm_num)

/-! Lemmas about the incremental line reader. -/

/-- Unfolding lemma: `joinLines` distributes over a cons. -/
theorem joinLines_cons (l : List Char) (ls : List (List Char)) :
    joinLines (l :: ls) = (l ++ ['\n']) ++ joinLines ls := by
  simp [joinLines]

/-- The consumed complete lines plus the unconsumed remainder reassemble the
pending accumulator followed by the unread suffix. -/
theorem completeLinesAux_join (s : List Char) : ∀ acc : List Char,
    joinLines (completeLinesAux acc s).1 ++ (completeLinesAux acc s).2 =
      acc.reverse ++ s := by
  induction s with
  | nil =>
    intro acc
    simp [completeLinesAux, joinLines]
  | cons c cs ih =>
    intro acc
    by_cases hc : c = '\n'
    · subst hc
      have h := ih []
      simp only [List.reverse_nil, List.nil_append] at h
      simp only [completeLinesAux, eq_self_iff_true, ite_true, joinLines_cons]
      rw [List.append_assoc, List.append_assoc, h]
      simp
    · simp only [completeLinesAux, if_neg hc]
      rw [ih (c :: acc)]
      simp
  
/-- The unconsumed remainder never contains a newline: the cursor is seeked
back to the start of any partial trailing line. -/
theorem completeLinesAux_leftover_no_newline (s : List Char) : ∀ acc : List Char,
    '\n' ∉ acc → '\n' ∉ (completeLinesAux acc s).2 := by
  induction s with
  | nil =>
    intro acc h hm
    exact h (List.mem_reverse.mp (by simpa [completeLinesAux] using hm))
  | cons c cs ih =>
    intro acc h
    by_cases hc : c = '\n'
    · subst hc
      simp only [completeLinesAux, if_pos rfl]
      exact ih [] (by simp)
    · simp only [completeLinesAux, if_neg hc]
      refine ih (c :: acc) ?_
      intro hm
      rcases List.mem_cons.mp hm with h1 | h2
      · exact hc h1.symm
      · exact h h2

/-- Reading a concatenation consumes the first chunk, then continues from
the accumulator state the first chunk left behind. -/
theorem completeLinesAux_append (s1 : List Char) : ∀ (acc s2 : List Char),
    completeLinesAux acc (s1 ++ s2) =
      ((completeLinesAux acc s1).1 ++
        (completeLinesAux ((completeLinesAux acc s1).2.reverse) s2).1,
       (completeLinesAux ((completeLinesAux acc s1).2.reverse) s2).2) := by
  induction s1 with
  | nil =>
    intro acc s2
    simp [completeLinesAux]
  | cons c cs ih =>
    intro acc s2
    by_cases hc : c = '\n'
    · subst hc
      simp only [List.cons_append, completeLinesAux, eq_self_iff_true, ite_true,
        List.append_eq]
      rw [ih []]
    · simp only [List.cons_append, completeLinesAux, if_neg hc, List.append_eq]
      exact ih (c :: acc) s2

/-- A newline-free prefix only extends the pending accumulator. -/
theorem completeLinesAux_resume (t : List Char) : ∀ (acc s2 : List Char),
    '\n' ∉ t →
    completeLinesAux acc (t ++ s2) = completeLinesAux (t.reverse ++ acc) s2 := by
  induction t with
  | nil =>
    intro acc s2 _
    simp
  | cons c cs ih =>
    intro acc s2 h
    have hc : ¬(c = '\n') := fun hc => h (by simp [hc])
    simp only [List.cons_append, completeLinesAux, if_neg hc, List.append_eq]
    rw [ih (c :: acc) s2 (fun hm => h (List.mem_cons_of_mem _ hm))]
    simp

/-- The reader loop keeps exactly the parseable lines (in order) and
reports exactly the malformed ones. -/
theorem collectLoop_eq {α : Type} (parse : List Char → Option α)
    (ls : List (List Char)) :
    collectLoop parse ls =
      (ls.filterMap parse, ls.filter (fun l => (parse l).isNone)) := by
  induction ls with
  | nil => rfl
  | cons l ls ih =>
    cases hp : parse l with
    | none => simp [collectLoop, hp, ih, List.filterMap_cons, List.filter_cons]
    | some r => simp [collectLoop, hp, ih, List.filterMap_cons, List.filter_cons]

/-! C3. -/

/-- C3: the incremental reader returns exactly the complete
newline-terminated lines in file order, leaving the newline-free partial
tail unconsumed; and reading a log written in two chunks split anywhere
(second call resuming from the first call leftover) yields exactly the
records, and final cursor state, of one call over the whole content. -/
theorem stream_complete_lines_and_split {α : Type}
    (parse : List Char → Option α) (s s1 s2 : List Char) :
    joinLines (completeLines s).1 ++ (completeLines s).2 = s ∧
    '\n' ∉ (completeLines s).2 ∧
    (collect_transfers parse s1).transfers ++
      (collect_transfers parse
        ((collect_transfers parse s1).leftover ++ s2)).transfers =
      (collect_transfers parse (s1 ++ s2)).transfers ∧
    (collect_transfers parse
        ((collect_transfers parse s1).leftover ++ s2)).leftover =
      (collect_transfers parse (s1 ++ s2)).leftover := by
  have happ : completeLines (s1 ++ s2) =
      ((completeLines s1).1 ++
        (completeLinesAux ((completeLines s1).2.reverse) s2).1,
       (completeLinesAux ((completeLines s1).2.reverse) s2).2) :=
    completeLinesAux_append s1 [] s2
  have hnl : '\n' ∉ (completeLines s1).2 :=
    completeLinesAux_leftover_no_newline s1 [] (by simp)
  have hq : completeLines ((completeLines s1).2 ++ s2) =
      completeLinesAux ((completeLines s1).2.reverse) s2 := by
    rw [completeLines, completeLinesAux_resume _ _ _ hnl, List.append_nil]
  have hcol : ∀ x : List Char,
      (collect_transfers parse x).transfers =
        ((completeLines x).1).filterMap parse ∧
      (collect_transfers parse x).leftover = (completeLines x).2 := by
    intro x
    constructor
    · simp [collect_transfers, collectLoop_eq]
    · rfl
  refine ⟨completeLinesAux_join s [],
    completeLinesAux_leftover_no_newline s [] (by simp), ?_, ?_⟩
  · rw [(hcol s1).1, (hcol (s1 ++ s2)).1, (hcol _).2,
      (hcol ((completeLines s1).2 ++ s2)).1, hq, happ]
    exact (List.filterMap_append _ _ _).symm
  · rw [(hcol _).2, (hcol (s1 ++ s2)).2, (hcol s1).2, hq, happ]

/-! C8. -/

/-- Splitting the lines into parsed records and skipped failures loses
exactly the malformed lines: one lost record per malformed line. -/
theorem filterMap_length_split {α : Type} (parse : List Char → Option α)
    (ls : List (List Char)) :
    (ls.filterMap parse).length +
      (ls.filter (fun x => (parse x).isNone)).length = ls.length := by
  induction ls with
  | nil => rfl
  | cons l ls ih =>
    cases hp : parse l with
    | none =>
      rw [List.filterMap_cons_none hp, List.filter_cons_of_pos (by simp [hp])]
      simp only [List.length_cons]
      omega
    | some r =>
      rw [List.filterMap_cons_some hp, List.filter_cons_of_neg (by simp [hp])]
      simp only [List.length_cons]
      omega

/-- A log containing a malformed line makes the sender counting loop raise
on its first malformed line. -/
theorem countSendsLines_err (ls : List (List Char)) (l : List Char)
    (hmem : l ∈ ls) (hbad : parse_send l = none) :
    ∃ bad ∈ ls, parse_send bad = none ∧ countSendsLines ls = .error bad := by
  induction ls with
  | nil => cases hmem
  | cons x xs ih =>
    cases hp : parse_send x with
    | none =>
      exact ⟨x, List.mem_cons_self _ _, hp, by simp [countSendsLines, hp]⟩
    | some v =>
      have hmem2 : l ∈ xs := by
        rcases List.mem_cons.mp hmem with h1 | h2
        · rw [h1, hp] at hbad
          cases hbad
        · exact h2
      obtain ⟨bad, hb1, hb2, hb3⟩ := ih hmem2
      exact ⟨bad, List.mem_cons_of_mem _ hb1, hb2,
        by simp [countSendsLines, hp, hb3, Except.map]⟩

/-- C8 counterexample: on a log with one malformed and one well-formed
line, the Monitor reader returns the one good record and skips the bad
line, but `compute_sender_results` raises on the malformed line instead of
counting the successfully parsed record. -/
theorem sender_results_fatal_on_malformed_cx :
    compute_sender_results (("garbage\nm1,1000\n").data) 0 1 =
      .error (.parseFailure (("garbage\n").data)) ∧
    (collect_transfers parse_send (("garbage\nm1,1000\n").data)).transfers =
      [((("m1").data), 1000)] ∧
    (collect_transfers parse_send (("garbage\nm1,1000\n").data)).failedLines =
      [(("garbage").data)] := by
  refine ⟨?_, by decide, by decide⟩
  unfold compute_sender_results
  have h : countSendsLines (pyFileLines (("garbage\nm1,1000\n").data)) =
      .error (("garbage\n").data) := by decide
  rw [h]

/-- C8 (amended): in the Monitor reader, parse failures are reported and
skipped and never fatal — it returns exactly the records of the well-formed
lines, losing one record per malformed line — but the statistics engine has
no such recovery: any malformed line makes `compute_sender_results` raise a
parse failure instead of counting the well-formed records. -/
theorem collect_skips_but_sender_results_fatal {α : Type}
    (parse : List Char → Option α) (s content : List Char) (st et : ℚ)
    (l : List Char) :
    (collect_transfers parse s).transfers =
      ((completeLines s).1).filterMap parse ∧
    (collect_transfers parse s).failedLines =
      ((completeLines s).1).filter (fun x => (parse x).isNone) ∧
    (collect_transfers parse s).transfers.length +
      (collect_transfers parse s).failedLines.length =
      ((completeLines s).1).length ∧
    (l ∈ pyFileLines content → parse_send l = none →
      ∃ bad ∈ pyFileLines content, parse_send bad = none ∧
        compute_sender_results content st et = .error (.parseFailure bad)) := by
  refine ⟨by simp [collect_transfers, collectLoop_eq],
    by simp [collect_transfers, collectLoop_eq],
    by simp [collect_transfers, collectLoop_eq, filterMap_length_split], ?_⟩
  intro hmem hbad
  obtain ⟨bad, hb1, hb2, hb3⟩ := countSendsLines_err _ l hmem hbad
  refine ⟨bad, hb1, hb2, ?_⟩
  unfold compute_sender_results
  rw [hb3]

/-- C8 witness: the last conjunct applied to a concrete malformed log. -/
theorem collect_skips_but_sender_results_fatal_witness :
    ((("garbage\n").data ∈ pyFileLines (("garbage\nm1,1000\n").data)) ∧
      parse_send (("garbage\n").data) = none) ∧
    ∃ bad ∈ pyFileLines (("garbage\nm1,1000\n").data),
      parse_send bad = none ∧
      compute_sender_results (("garbage\nm1,1000\n").data) 0 1 =
        .error (.parseFailure bad) := by
  refine ⟨⟨by decide, by decide⟩, ?_⟩
  exact (collect_skips_but_sender_results_fatal parse_send []
    (("garbage\nm1,1000\n").data) 0 1 (("garbage\n").data)).2.2.2
    (by decide) (by decide)

/-! Percentile (linear interpolation) lemmas. -/

/-- Monotone access into a sorted list via `getD`. -/
theorem sorted_getD_mono {s : List ℚ} (hs : s.Sorted (· ≤ ·)) {i j : Nat}
    (hij : i ≤ j) (hj : j < s.length) : s.getD i 0 ≤ s.getD j 0 := by
  have hi : i < s.length := Nat.lt_of_le_of_lt hij hj
  rw [List.getD_eq_getElem s 0 hi, List.getD_eq_getElem s 0 hj]
  rcases Nat.eq_or_lt_of_le hij with h | h
  · subst h
    exact le_refl _
  · have hab : (⟨i, hi⟩ : Fin s.length) < ⟨j, hj⟩ := h
    have h2 := hs.rel_get_of_lt hab
    simpa [List.get_eq_getElem] using h2

/-- The floor cast of a nonnegative rational, as a rational. -/
theorem floor_toNat_cast {r : ℚ} (h0 : 0 ≤ r) :
    ((⌊r⌋.toNat : ℚ)) = ((⌊r⌋ : ℤ) : ℚ) := by
  exact_mod_cast congrArg (fun z : ℤ => (z : ℚ))
    (Int.toNat_of_nonneg (Int.floor_nonneg.mpr h0))

/-- Interpolation at rank `r` is at least the value at the floor index. -/
theorem interpAt_ge_floor {s : List ℚ} (hs : s.Sorted (· ≤ ·)) {r : ℚ}
    (h0 : 0 ≤ r) (hub : ⌈r⌉.toNat < s.length) :
    s.getD ⌊r⌋.toNat 0 ≤ interpAt s r := by
  have hfc : ⌊r⌋ ≤ ⌈r⌉ := Int.floor_le_ceil r
  have hab : s.getD ⌊r⌋.toNat 0 ≤ s.getD ⌈r⌉.toNat 0 :=
    sorted_getD_mono hs (by omega) hub
  have hfr : ((⌊r⌋.toNat : ℚ)) ≤ r := by
    rw [floor_toNat_cast h0]
    exact Int.floor_le r
  unfold interpAt
  nlinarith [mul_nonneg (sub_nonneg.mpr hfr) (sub_nonneg.mpr hab)]

/-- Interpolation at rank `r` is at most the value at the ceiling index. -/
theorem interpAt_le_ceil {s : List ℚ} (hs : s.Sorted (· ≤ ·)) {r : ℚ}
    (h0 : 0 ≤ r) (hub : ⌈r⌉.toNat < s.length) :
    interpAt s r ≤ s.getD ⌈r⌉.toNat 0 := by
  have hfc : ⌊r⌋ ≤ ⌈r⌉ := Int.floor_le_ceil r
  have hab : s.getD ⌊r⌋.toNat 0 ≤ s.getD ⌈r⌉.toNat 0 :=
    sorted_getD_mono hs (by omega) hub
  have hr1 : r - ((⌊r⌋.toNat : ℚ)) ≤ 1 := by
    rw [floor_toNat_cast h0]
    have h1 : r ≤ ((⌈r⌉ : ℤ) : ℚ) := Int.le_ceil r
    have h2 : ⌈r⌉ ≤ ⌊r⌋ + 1 := Int.ceil_le_floor_add_one r
    have h3 : ((⌈r⌉ : ℤ) : ℚ) ≤ ((⌊r⌋ : ℤ) : ℚ) + 1 := by exact_mod_cast h2
    linarith
  have hfr : ((⌊r⌋.toNat : ℚ)) ≤ r := by
    rw [floor_toNat_cast h0]
    exact Int.floor_le r
  unfold interpAt
  nlinarith [mul_nonneg (sub_nonneg.mpr hfr) (sub_nonneg.mpr hab),
    mul_le_mul_of_nonneg_right hr1 (sub_nonneg.mpr hab)]

/-- Interpolation into a sorted list is monotone in the rank. -/
theorem interpAt_mono {s : List ℚ} (hs : s.Sorted (· ≤ ·)) {r r2 : ℚ}
    (h0 : 0 ≤ r) (hrr : r ≤ r2) (hub : r2 ≤ (s.length : ℚ) - 1) :
    interpAt s r ≤ interpAt s r2 := by
  have h02 : 0 ≤ r2 := le_trans h0 hrr
  have hn1 : 1 ≤ s.length := by
    rcases Nat.eq_zero_or_pos s.length with h | h
    · rw [h] at hub
      norm_num at hub
      linarith
    · exact h
  have hceil2 : ⌈r2⌉ ≤ (s.length : ℤ) - 1 := by
    apply Int.ceil_le.mpr
    push_cast
    linarith
  have hub2 : ⌈r2⌉.toNat < s.length := by omega
  have hceil1 : ⌈r⌉ ≤ ⌈r2⌉ := Int.ceil_mono hrr
  have hub1 : ⌈r⌉.toNat < s.length := by omega
  by_cases hc : ⌈r⌉ ≤ ⌊r2⌋
  · have hfl2 : 0 ≤ ⌊r2⌋ := Int.floor_nonneg.mpr h02
    have hflub : ⌊r2⌋.toNat < s.length := by
      have := Int.floor_le_ceil r2
      omega
    calc interpAt s r ≤ s.getD ⌈r⌉.toNat 0 := interpAt_le_ceil hs h0 hub1
      _ ≤ s.getD ⌊r2⌋.toNat 0 := sorted_getD_mono hs (by omega) hflub
      _ ≤ interpAt s r2 := interpAt_ge_floor hs h02 hub2
  · push_neg at hc
    have hffloor : ⌊r⌋ ≤ ⌊r2⌋ := Int.floor_mono hrr
    have hc1 : ⌈r⌉ ≤ ⌊r⌋ + 1 := Int.ceil_le_floor_add_one r
    have hce2 : ⌈r2⌉ ≤ ⌊r2⌋ + 1 := Int.ceil_le_floor_add_one r2
    have hfe : ⌊r2⌋ = ⌊r⌋ := by omega
    have hcee : ⌈r2⌉ = ⌈r⌉ := by omega
    have hfc : ⌊r⌋ ≤ ⌈r⌉ := Int.floor_le_ceil r
    have hab : s.getD ⌊r⌋.toNat 0 ≤ s.getD ⌈r⌉.toNat 0 :=
      sorted_getD_mono hs (by omega) hub1
    unfold interpAt
    rw [hfe, hcee]
    nlinarith [mul_le_mul_of_nonneg_right (sub_le_sub_right hrr
      ((⌊r⌋.toNat : ℚ))) (sub_nonneg.mpr hab)]

/-- Monotonicity of `numpy.percentile` with linear interpolation in the
percentage, for any data list. -/
theorem percentile_mono (l : List ℚ) (hne : l ≠ []) {q q2 : ℚ}
    (h0 : 0 ≤ q) (hqq : q ≤ q2) (h100 : q2 ≤ 100) :
    percentile l q ≤ percentile l q2 := by
  have hlen : (l.insertionSort (· ≤ ·)).length = l.length :=
    (List.perm_insertionSort (· ≤ ·) l).length_eq
  have hs : (l.insertionSort (· ≤ ·)).Sorted (· ≤ ·) :=
    List.sorted_insertionSort (· ≤ ·) l
  have hn1 : 1 ≤ l.length := List.length_pos.mpr hne
  have hcast : (1 : ℚ) ≤ (l.length : ℚ) := by exact_mod_cast hn1
  unfold percentile
  apply interpAt_mono hs
  · apply div_nonneg (mul_nonneg h0 (by linarith)) (by norm_num)
  · have h2 : q * ((l.length : ℚ) - 1) ≤ q2 * ((l.length : ℚ) - 1) := by
      apply mul_le_mul_of_nonneg_right hqq (by linarith)
    linarith
  · rw [hlen]
    have h2 : q2 * ((l.length : ℚ) - 1) ≤ 100 * ((l.length : ℚ) - 1) := by
      apply mul_le_mul_of_nonneg_right h100 (by linarith)
    linarith

/-- Any percentile of a one-element data list is that element. -/
theorem percentile_singleton (a q : ℚ) : percentile [a] q = a := by
  unfold percentile interpAt
  norm_num [List.insertionSort, List.orderedInsert]

/-! C2. -/

/-- C2: for a well-formed, nonempty receiver log and a nonzero duration,
`compute_receiver_results` stores the arithmetic mean of the per-record
latencies `receive_time - send_time` and the four linearly interpolated
percentiles over the sorted latency sequence, and the stored quartiles are
monotone: p25 ≤ p50 ≤ p75 ≤ p100. -/
theorem receiver_results_mean_and_quartiles (content : List Char) (st et : ℚ)
    (lats : List ℚ) (hp : receiverLatencies content = .ok lats)
    (hne : lats ≠ []) (hd : et - st ≠ 0) :
    compute_receiver_results content st et =
      .ok { message_count := lats.length,
            message_rate := pyRound ((lats.length : ℚ) / (et - st)),
            message_latency := listMean lats,
            message_latency_by_quartile :=
              (percentile lats 25, percentile lats 50,
               percentile lats 75, percentile lats 100),
            warnings := [] } ∧
    listMean lats = lats.sum / lats.length ∧
    percentile lats 25 ≤ percentile lats 50 ∧
    percentile lats 50 ≤ percentile lats 75 ∧
    percentile lats 75 ≤ percentile lats 100 := by
  refine ⟨?_, rfl,
    percentile_mono lats hne (by norm_num) (by norm_num) (by norm_num),
    percentile_mono lats hne (by norm_num) (by norm_num) (by norm_num),
    percentile_mono lats hne (by norm_num) (by norm_num) (by norm_num)⟩
  have hee : lats.isEmpty = false := by
    cases lats with
    | nil => exact absurd rfl hne
    | cons a t => rfl
  unfold compute_receiver_results
  simp only [hp]
  rw [if_neg hd]
  rw [hee]
  rfl

/-- C2 witness: the spec example receiver log, latencies [10, 5] over one
second; additionally `p50 = 15/2`, the example median. -/
theorem receiver_results_mean_and_quartiles_witness :
    (receiverLatencies (("m1,1000,1010\nm2,1050,1055\n").data) =
      .ok [10, 5]) ∧ ([10, (5 : ℚ)] ≠ []) ∧ ((1 : ℚ) - 0 ≠ 0) ∧
    (compute_receiver_results (("m1,1000,1010\nm2,1050,1055\n").data) 0 1 =
      .ok { message_count := ([10, (5 : ℚ)]).length,
            message_rate := pyRound ((([10, (5 : ℚ)]).length : ℚ) / (1 - 0)),
            message_latency := listMean [10, 5],
            message_latency_by_quartile :=
              (percentile [10, 5] 25, percentile [10, 5] 50,
               percentile [10, 5] 75, percentile [10, 5] 100),
            warnings := [] } ∧
     listMean [10, (5 : ℚ)] = ([10, (5 : ℚ)]).sum / ([10, (5 : ℚ)]).length ∧
     percentile [10, (5 : ℚ)] 25 ≤ percentile [10, 5] 50 ∧
     percentile [10, (5 : ℚ)] 50 ≤ percentile [10, 5] 75 ∧
     percentile [10, (5 : ℚ)] 75 ≤ percentile [10, 5] 100) ∧
    listMean [10, (5 : ℚ)] = 15/2 := by
  refine ⟨by decide, by decide, by norm_num, ?_, by norm_num [listMean]⟩
  exact receiver_results_mean_and_quartiles
    (("m1,1000,1010\nm2,1050,1055\n").data) 0 1 [10, 5]
    (by decide) (by decide) (by norm_num)

/-! C9. -/

/-- C9 counterexample: a record received before it was sent (latency -10)
flows through `compute_receiver_results` as the raw negative difference with
an empty diagnostic output: tolerated, but silently — no warning is
emitted, contradicting "flagged with a warning". -/
theorem negative_latency_silent_cx :
    compute_receiver_results (("m1,1000,990\n").data) 0 1 =
      .ok { message_count := 1, message_rate := 1, message_latency := -10,
            message_latency_by_quartile := (-10, -10, -10, -10),
            warnings := [] } ∧ (-10 : ℚ) < 0 := by
  refine ⟨?_, by norm_num⟩
  have hl : receiverLatencies (("m1,1000,990\n").data) = .ok [-10] := by decide
  unfold compute_receiver_results
  simp only [hl]
  rw [if_neg (by norm_num : ¬((1 : ℚ) - 0 = 0))]
  have hee : ([(-10 : ℚ)]).isEmpty = false := rfl
  rw [hee]
  have hr : pyRound ((([(-10 : ℚ)]).length : ℚ) / (1 - 0)) = 1 := by
    apply pyRound_eval <;> norm_num
  have hm : listMean [(-10 : ℚ)] = -10 := by norm_num [listMean]
  simp only [percentile_singleton, hr, hm]
  rfl

/-- C9 (amended): a negative latency is kept as the raw difference
`receive_time - send_time`, never clamped or dropped — the snapshot stores
the mean of the raw differences and the receiver statistics keep every
parsed latency — but no warning is emitted anywhere: the diagnostic output
of both computations is always empty. -/
theorem negative_latency_raw_and_unwarned (operation : List Char)
    (total : Nat) (recs : List (List Char × Int × Int)) (period : ℚ)
    (content : List Char) (st et : ℚ) :
    (period ≠ 0 →
      capture_transfers operation total recs period =
        some { message_total := total, message_count := recs.length,
               message_rate := pyRound ((recs.length : ℚ) / period),
               message_latency :=
                 if 0 < recs.length ∧ operation = ("receive").data then
                   some (listMean
                     (recs.map (fun x => ((x.2.2 - x.2.1 : Int) : ℚ))))
                 else none,
               warnings := [] }) ∧
    (compute_receiver_results content st et).map (fun res => res.warnings) =
      (compute_receiver_results content st et).map
        (fun _res => ([] : List (List Char))) := by
  constructor
  · intro hp
    unfold capture_transfers
    rw [if_neg hp]
  · unfold compute_receiver_results
    cases hx : receiverLatencies content with
    | error l => rfl
    | ok lats =>
      by_cases hd : et - st = 0
      · simp [hd, Except.map]
      · cases he : lats.isEmpty
        · simp [hd, he, Except.map]
        · simp [hd, he, Except.map]

/-- C9 witness: a one-record batch received 10 before it was sent is
captured with latency mean -10 and no warning. -/
theorem negative_latency_raw_and_unwarned_witness :
    ((1 : ℚ) ≠ 0) ∧
    capture_transfers (("receive").data) 1 [((("m1").data), 1000, 990)] 1 =
      some { message_total := 1, message_count := 1,
             message_rate := pyRound (((1 : Nat) : ℚ) / 1),
             message_latency := some (listMean [((990 - 1000 : Int) : ℚ)]),
             warnings := [] } := by
  refine ⟨by norm_num, ?_⟩
  have h := (negative_latency_raw_and_unwarned (("receive").data) 1
    [((("m1").data), 1000, 990)] 1 [] 0 1).1 (by norm_num)
  rw [h]
  norm_num

/-! C10. -/

/-- The inline parsing loop of `print_results` builds exactly the latency
sequence the `_parse_receive`-based loop of `compute_receiver_results`
builds, failing on exactly the same first malformed line. -/
theorem printLatencies_eq (ls : List (List Char)) :
    printLatenciesLines ls = receiverLatenciesLines ls := by
  induction ls with
  | nil => rfl
  | cons l rest ih =>
    rcases hsp : splitComma 2 l with _ | ⟨a, _ | ⟨b, _ | ⟨c, _ | ⟨d, t⟩⟩⟩⟩ <;>
      simp only [printLatenciesLines, receiverLatenciesLines, parse_receive, hsp]
    cases hb : pyLong b <;> cases hc2 : pyLong c <;>
      simp [hb, hc2, ih, Except.map]

/-- C10: `print_results` and `compute_receiver_results` are extensionally
equal: on every log and start/end pair, the duration, count, rate, mean
latency and quartiles `print_results` recomputes are exactly the values
`compute_receiver_results` stores (and they fail identically). -/
theorem print_results_refines_receiver_results (content : List Char)
    (st et : ℚ) :
    print_results content st et =
      (compute_receiver_results content st et).map
        (fun r => { duration := et - st, transfers := r.message_count,
                    rate := r.message_rate, latency := r.message_latency,
                    quartiles := r.message_latency_by_quartile }) := by
  unfold print_results compute_receiver_results receiverLatencies
  rw [printLatencies_eq]
  cases hx : receiverLatenciesLines (pyFileLines content) with
  | error l => rfl
  | ok lats =>
    by_cases hd : et - st = 0
    · simp [hd, Except.map]
    · cases he : lats.isEmpty
      · simp [hd, he, Except.map]
      · simp [hd, he, Except.map]

end Quiver
